import Mathlib

/-!
Verification of the readoutlibs queue-model and collaborator headers.

Shallow embedding of:
  * `FixedRateQueueModel::lower_bound` (src/include/readoutlibs/models/FixedRateQueueModel.hpp),
  * the worker loop of `RecorderImpl::do_work` (src/include/readoutlibs/models/RecorderModel.hpp),
  * the dropout-table construction and per-iteration dropout decision of
    `SourceEmulatorModel` (src/include/readoutlibs/models/SourceEmulatorModel.hpp).

The ring-buffer substrate (`IterableQueueModel`) and the binary-search lookup
(`BinarySearchQueueModel`) are part of this repository but their headers are not
among the sources; those parts are modelled from the specification and carry a
doc comment saying so.
-/

namespace Readout

/-- Width of the C++ `uint32_t` type: values live below `2 ^ 32`. -/
def U32 : Nat := 2 ^ 32

/-- Width of the C++ `uint64_t` type: values live below `2 ^ 64`. -/
def U64 : Nat := 2 ^ 64

/-- Record contract (spec section 6): an element type exposes
`get_first_timestamp()` (a `uint64_t` tick count) and `get_num_frames()`.
The per-type constant `expected_tick_difference` is passed separately to the
operations that use it. -/
structure Record where
  firstTimestamp : Nat
  numFrames : Nat
deriving Repr, DecidableEq

/-- Modelled from the spec: the ring-buffer state of `IterableQueueModel`
(header not among the sources). `size_` is the fixed capacity, `records_` the
slot storage (meaningful for indices below `size_`), `readIndex_` and
`writeIndex_` the read and write cursors. -/
structure QState where
  size_ : Nat
  records_ : Nat → Record
  readIndex_ : Nat
  writeIndex_ : Nat

/-- Modelled from the spec: `IterableQueueModel::occupancy()`, specified as
`(write - read) mod capacity` (spec sections 3 and 4.1). -/
def QState.occupancy (s : QState) : Nat :=
  (s.writeIndex_ + s.size_ - s.readIndex_) % s.size_

/-- Timestamp of the record at logical position `i` of the valid range:
physical slot `(read + i) mod capacity` (spec section 4.2). -/
def QState.logicalTs (s : QState) (i : Nat) : Nat :=
  (s.records_ ((s.readIndex_ + i) % s.size_)).firstTimestamp

/-- Modelled from the spec: the result of a lookup — either the `end()`
sentinel of `IterableQueueModel` or an `Iterator` positioned at a physical
slot index (spec sections 3 and 4.4). -/
inductive LBResult where
  | endIt : LBResult
  | it : Nat → LBResult
deriving Repr, DecidableEq

/-- Modelled from the spec: `BinarySearchQueueModel::lower_bound` (header not
among the sources). Default mode (spec section 4.2): binary search over the
logical range `[0, occupancy)` mapped to physical positions
`(read + logical) mod capacity`, narrowing to the leftmost position whose
timestamp is `>=` the target; returns `end()` if the target exceeds the newest
retained timestamp or precedes the oldest. `with_errors = true` mode: a linear
scan across the valid range returning the first record passing a
caller-supplied trustworthiness check `tw` whose timestamp is `>=` the target.
Only the specified result (leftmost qualifying position) is modelled, not the
search steps. -/
def binarySearchLowerBound (tw : Record → Bool) (s : QState) (t : Nat)
    (withErrors : Bool) : LBResult :=
  let occ := s.occupancy
  if withErrors then
    match (List.range occ).find?
        (fun i => tw (s.records_ ((s.readIndex_ + i) % s.size_))
                    && decide (t ≤ s.logicalTs i)) with
    | some i => LBResult.it ((s.readIndex_ + i) % s.size_)
    | none => LBResult.endIt
  else
    if occ = 0 then LBResult.endIt
    else if t < s.logicalTs 0 ∨ s.logicalTs (occ - 1) < t then LBResult.endIt
    else
      match (List.range occ).find? (fun i => decide (t ≤ s.logicalTs i)) with
      | some i => LBResult.it ((s.readIndex_ + i) % s.size_)
      | none => LBResult.endIt

/-- Embedding of `FixedRateQueueModel::lower_bound`
(FixedRateQueueModel.hpp lines 33-59), statement by statement.
`tickDiff` stands for the type-level constant `T::expected_tick_difference`;
`t` is `element.get_first_timestamp()`. All `uint64_t` arithmetic is reduced
modulo `U64` and all `uint32_t` arithmetic modulo `U32`, exactly where the
source stores into a value of that width. The `int64_t` local
`time_tick_diff` is non-negative here because the preceding bounds check
guarantees `last_ts <= t`. -/
def fixedRateLowerBound (tickDiff : Nat) (tw : Record → Bool) (s : QState)
    (t : Nat) (withErrors : Bool) : LBResult :=
  if withErrors then
    binarySearchLowerBound tw s t withErrors
  else
    let start_index := s.readIndex_
    let occupancy_guess := s.occupancy
    let last_ts := (s.records_ start_index).firstTimestamp
    let newest_ts :=
      (last_ts + occupancy_guess * tickDiff * (s.records_ start_index).numFrames) % U64
    if last_ts > t ∨ t > newest_ts then
      LBResult.endIt
    else
      let time_tick_diff := (t - last_ts) / tickDiff
      let num_element_offset :=
        (time_tick_diff / (s.records_ start_index).numFrames) % U32
      let target_index := (start_index + num_element_offset) % U32
      if target_index ≥ s.size_ then LBResult.it (target_index - s.size_)
      else LBResult.it target_index

/-- State-threaded form of `FixedRateQueueModel::lower_bound`. The body of the
source function (lines 33-59) consists only of local-variable initialisations,
reads of `readIndex_`, `occupancy()`, `records_` and `size_`, and return
statements; no member of the queue is assigned, so the translated state passes
through unchanged. The `with_errors = true` delegate likewise mutates nothing
(spec section 4.1: no operation other than `push`/`pop` mutates cursors). -/
def fixedRateLowerBoundSt (tickDiff : Nat) (tw : Record → Bool) (s : QState)
    (t : Nat) (withErrors : Bool) : LBResult × QState :=
  (fixedRateLowerBound tickDiff tw s t withErrors, s)

/-- Uniformly-spaced retained data (spec glossary, "fixed-rate data"): every
record in the valid range holds exactly `f` frames and first timestamps grow
by exactly `tickDiff * f` per record, starting at `ts0`. -/
def UniformFrom (s : QState) (tickDiff f ts0 : Nat) : Prop :=
  ∀ i, i < s.occupancy →
    s.logicalTs i = ts0 + i * (tickDiff * f) ∧
    (s.records_ ((s.readIndex_ + i) % s.size_)).numFrames = f

/-- Concrete record layout used for concrete evaluations: four committed
records with first timestamps 100, 120, 140, 160, each holding two frames
(tick spacing 10, so records are uniformly spaced by 20 ticks). -/
def exRecords : Nat → Record := fun i =>
  if i = 0 then ⟨100, 2⟩
  else if i = 1 then ⟨120, 2⟩
  else if i = 2 then ⟨140, 2⟩
  else if i = 3 then ⟨160, 2⟩
  else ⟨0, 2⟩

/-- Concrete queue of capacity 8 holding the four `exRecords` entries:
read cursor 0, write cursor 4, occupancy 4. -/
def exState : QState := ⟨8, exRecords, 0, 4⟩

/-- Concrete empty queue (occupancy 0) for the empty-buffer analysis:
capacity 4, both cursors at 0, the uncommitted slot at the read cursor
holding a record with timestamp 100 and two frames. -/
def exEmptyState : QState := ⟨4, fun _ => ⟨100, 2⟩, 0, 0⟩

/-- State of `RecorderImpl::do_work`'s loop (RecorderModel.hpp lines 95-114):
the run marker `m_run_marker`, the two packet counters, and the data appended
to the output file so far (elements modelled by their payload). -/
structure RecState where
  runMarker : Bool
  packetsTotal : Nat
  packetsSince : Nat
  fileData : List Nat
deriving Repr, DecidableEq

/-- Outcome of `m_input_queue->pop(element, 100ms)`: either the
`QueueTimeoutExpired` exception or a popped element. -/
inductive PopOutcome where
  | timeoutExpired : PopOutcome
  | elem : Nat → PopOutcome
deriving Repr, DecidableEq

/-- Result of one iteration of the `while (m_run_marker)` loop: either the
loop exits (followed by the flush) or proceeds to the next iteration. -/
inductive LoopStep where
  | exitLoop : RecState → LoopStep
  | nextIter : RecState → LoopStep
deriving Repr, DecidableEq

/-- One iteration of `RecorderImpl::do_work` (RecorderModel.hpp lines 100-112):
check the run marker; pop; on `QueueTimeoutExpired` catch and `continue`; on
success increment both counters, then write — a failed write warns and
`break`s, a successful write appends the element. `writeOk` is the boolean
returned by `m_buffered_writer.write`. -/
def do_work_step (s : RecState) (popResult : PopOutcome) (writeOk : Bool) :
    LoopStep :=
  if s.runMarker then
    match popResult with
    | PopOutcome.timeoutExpired => LoopStep.nextIter s
    | PopOutcome.elem e =>
      let s1 : RecState :=
        ⟨s.runMarker, s.packetsTotal + 1, s.packetsSince + 1, s.fileData⟩
      if writeOk then
        LoopStep.nextIter ⟨s1.runMarker, s1.packetsTotal, s1.packetsSince,
          s1.fileData ++ [e]⟩
      else LoopStep.exitLoop s1
  else LoopStep.exitLoop s

/-- Dropout-table construction of `SourceEmulatorModel::conf`
(SourceEmulatorModel.hpp lines 102-110): when `m_dropout_rate == 0.0` the
table has a single entry, otherwise `random_population_size` entries; entry
`i` is `dis(mt) >= m_dropout_rate` for a fresh uniform draw from `[0, 1)`.
The real-valued draws are modelled as rationals `draws i`. -/
def conf_dropouts (dropout_rate : ℚ) (random_population_size : Nat)
    (draws : Nat → ℚ) : List Bool :=
  let len := if dropout_rate = 0 then 1 else random_population_size
  (List.range len).map (fun i => decide (dropout_rate ≤ draws i))

/-- Per-iteration dropout decision of `SourceEmulatorModel::run_produce`
(SourceEmulatorModel.hpp lines 187-188): iteration `k` reads
`m_dropouts[dropout_index]` where `dropout_index` starts at 0 and advances by
`(dropout_index + 1) % m_dropouts.size()`, hence equals `k % size` at
iteration `k`. -/
def create_frame (dropouts : List Bool) (k : Nat) : Bool :=
  dropouts.getD (k % dropouts.length) false

/-- Number of records pushed to the sink during the first `n` iterations of
`run_produce`: iteration `k` pushes exactly when `create_frame` holds
(SourceEmulatorModel.hpp lines 189-218). -/
def run_produce_pushes (dropouts : List Bool) : Nat → Nat
  | 0 => 0
  | n + 1 =>
    run_produce_pushes dropouts n + (if create_frame dropouts n then 1 else 0)

/-- Helper: `find?` over `List.range' a n` returns the least qualifying index
when one exists in the range. -/
theorem find_range_aux (p : Nat → Bool) :
    ∀ (n a j : Nat), a ≤ j → j < a + n → p j = true →
      (∀ i, a ≤ i → i < j → p i = false) →
      (List.range' a n).find? p = some j := by
  intro n
  induction n with
  | zero => intro a j h1 h2 _ _; omega
  | succ n ih =>
    intro a j h1 h2 hp hlt
    rw [List.range'_succ]
    rcases Nat.eq_or_lt_of_le h1 with rfl | hgt
    · rw [List.find?_cons_of_pos _ hp]
    · rw [List.find?_cons_of_neg _ (by simp [hlt a (Nat.le_refl a) hgt])]
      exact ih (a + 1) j (by omega) (by omega) hp
        (fun i hi hij => hlt i (by omega) hij)

/-- Helper: `find?` over `List.range n` returns the least index below `n`
satisfying the predicate, when the indices below it all fail it. -/
theorem find_range_eq_some (p : Nat → Bool) (n j : Nat) (hj : j < n)
    (hp : p j = true) (hmin : ∀ i, i < j → p i = false) :
    (List.range n).find? p = some j := by
  rw [List.range_eq_range']
  exact find_range_aux p n 0 j (Nat.zero_le j) (by omega) hp
    (fun i _ hij => hmin i hij)

/-- Helper: a quantity bounded by `occ * td * f` stays bounded by `occ` after
the two truncating divisions by `td` and `f`. -/
theorem div_div_le_of_le (occ td f a : Nat) (hd : 0 < td) (hf : 0 < f)
    (h : a ≤ occ * td * f) : a / td / f ≤ occ := by
  have h1 : a / td ≤ occ * f := by
    have h2 := Nat.div_le_div_right (c := td) h
    rwa [show occ * td * f = td * (occ * f) by ring,
      Nat.mul_div_cancel_left _ hd] at h2
  have h3 := Nat.div_le_div_right (c := f) h1
  rwa [Nat.mul_div_cancel _ hf] at h3

/-- Helper: definitional unfolding of the `with_errors = false` branch of
`fixedRateLowerBound`, with the machine-width reductions still in place. -/
theorem fixedRate_false_unfold (tickDiff : Nat) (tw : Record → Bool)
    (s : QState) (t : Nat) :
    fixedRateLowerBound tickDiff tw s t false =
      if (s.records_ s.readIndex_).firstTimestamp > t ∨
          t > ((s.records_ s.readIndex_).firstTimestamp +
            s.occupancy * tickDiff * (s.records_ s.readIndex_).numFrames) % U64 then
        LBResult.endIt
      else if (s.readIndex_ +
            ((t - (s.records_ s.readIndex_).firstTimestamp) / tickDiff /
              (s.records_ s.readIndex_).numFrames) % U32) % U32 ≥ s.size_ then
        LBResult.it ((s.readIndex_ +
          ((t - (s.records_ s.readIndex_).firstTimestamp) / tickDiff /
            (s.records_ s.readIndex_).numFrames) % U32) % U32 - s.size_)
      else
        LBResult.it ((s.readIndex_ +
          ((t - (s.records_ s.readIndex_).firstTimestamp) / tickDiff /
            (s.records_ s.readIndex_).numFrames) % U32) % U32) :=
  rfl

/-- Helper: under the record-contract and no-overflow side conditions, the
fast path of `FixedRateQueueModel::lower_bound` computes exactly the bounds
check followed by the truncating-division index with one conditional
subtraction of the capacity; all machine-width reductions are the identity. -/
theorem fast_path_eval (tickDiff : Nat) (tw : Record → Bool) (s : QState)
    (t : Nat) (hd : 0 < tickDiff)
    (hf : 0 < (s.records_ s.readIndex_).numFrames)
    (hread : s.readIndex_ < s.size_) (hcap : s.size_ ≤ 2 ^ 31)
    (hov : (s.records_ s.readIndex_).firstTimestamp +
      s.occupancy * tickDiff * (s.records_ s.readIndex_).numFrames < U64) :
    fixedRateLowerBound tickDiff tw s t false =
      if t < (s.records_ s.readIndex_).firstTimestamp ∨
          (s.records_ s.readIndex_).firstTimestamp +
            s.occupancy * tickDiff * (s.records_ s.readIndex_).numFrames < t then
        LBResult.endIt
      else if s.size_ ≤ s.readIndex_ +
          (t - (s.records_ s.readIndex_).firstTimestamp) / tickDiff /
            (s.records_ s.readIndex_).numFrames then
        LBResult.it (s.readIndex_ +
          (t - (s.records_ s.readIndex_).firstTimestamp) / tickDiff /
            (s.records_ s.readIndex_).numFrames - s.size_)
      else
        LBResult.it (s.readIndex_ +
          (t - (s.records_ s.readIndex_).firstTimestamp) / tickDiff /
            (s.records_ s.readIndex_).numFrames) := by
  have hcap0 : 0 < s.size_ := Nat.lt_of_le_of_lt (Nat.zero_le _) hread
  have hoccle : s.occupancy ≤ s.size_ := Nat.le_of_lt (Nat.mod_lt _ hcap0)
  rw [fixedRate_false_unfold, Nat.mod_eq_of_lt hov]
  simp only [gt_iff_lt, ge_iff_le]
  by_cases hg : t < (s.records_ s.readIndex_).firstTimestamp ∨
      (s.records_ s.readIndex_).firstTimestamp +
        s.occupancy * tickDiff * (s.records_ s.readIndex_).numFrames < t
  · rw [if_pos hg, if_pos hg]
  · rw [if_neg hg, if_neg hg]
    push_neg at hg
    obtain ⟨hg1, hg2⟩ := hg
    have hsub : t - (s.records_ s.readIndex_).firstTimestamp ≤
        s.occupancy * tickDiff * (s.records_ s.readIndex_).numFrames := by omega
    have hoffocc := div_div_le_of_le s.occupancy tickDiff
      (s.records_ s.readIndex_).numFrames
      (t - (s.records_ s.readIndex_).firstTimestamp) hd hf hsub
    have hcapv : s.size_ ≤ 2147483648 := by
      rw [show (2147483648 : Nat) = 2 ^ 31 by norm_num]
      exact hcap
    have hoff32 : (t - (s.records_ s.readIndex_).firstTimestamp) / tickDiff /
        (s.records_ s.readIndex_).numFrames < U32 := by
      rw [show U32 = 4294967296 from by norm_num [U32]]
      omega
    rw [Nat.mod_eq_of_lt hoff32]
    have htgt32 : s.readIndex_ +
        (t - (s.records_ s.readIndex_).firstTimestamp) / tickDiff /
          (s.records_ s.readIndex_).numFrames < U32 := by
      rw [show U32 = 4294967296 from by norm_num [U32]]
      omega
    rw [Nat.mod_eq_of_lt htgt32]

/-- Helper: definitional unfolding of the default branch of the modelled
binary-search lookup. -/
theorem binarySearch_false_unfold (tw : Record → Bool) (s : QState) (t : Nat) :
    binarySearchLowerBound tw s t false =
      if s.occupancy = 0 then LBResult.endIt
      else if t < s.logicalTs 0 ∨ s.logicalTs (s.occupancy - 1) < t then
        LBResult.endIt
      else
        match (List.range s.occupancy).find?
            (fun i => decide (t ≤ s.logicalTs i)) with
        | some i => LBResult.it ((s.readIndex_ + i) % s.size_)
        | none => LBResult.endIt :=
  rfl

/-- C1 fails as stated: on `exState` (retained timestamps 100, 120, 140, 160 —
non-decreasing, in fact uniformly spaced) and target 110, which lies between
the oldest and newest retained timestamps, the fast path returns the iterator
at slot 0, whose record's timestamp 100 is smaller than 110 even though a
retained record with timestamp `>=` 110 exists at logical position 1. -/
theorem c1_smallest_ge_counterexample :
    (∀ i, i < exState.occupancy - 1 →
      exState.logicalTs i ≤ exState.logicalTs (i + 1)) ∧
    exState.logicalTs 0 ≤ 110 ∧
    110 ≤ exState.logicalTs (exState.occupancy - 1) ∧
    fixedRateLowerBound 10 (fun _ => true) exState 110 false = LBResult.it 0 ∧
    (exState.records_ 0).firstTimestamp < 110 ∧
    110 ≤ exState.logicalTs 1 := by
  decide

/-- C2 fails as stated: `exState` is uniformly spaced (every retained record
holds 2 frames at tick spacing 10) and the target 110 lies in the retained
range, yet the fixed-rate fast path returns slot 0 while the binary-search
lookup returns slot 1. -/
theorem c2_equivalence_counterexample :
    (∀ i, i < exState.occupancy →
      exState.logicalTs i = 100 + i * (10 * 2) ∧
      (exState.records_ ((exState.readIndex_ + i) % exState.size_)).numFrames = 2) ∧
    exState.logicalTs 0 ≤ 110 ∧
    110 ≤ exState.logicalTs (exState.occupancy - 1) ∧
    fixedRateLowerBound 10 (fun _ => true) exState 110 false ≠
      binarySearchLowerBound (fun _ => true) exState 110 false := by
  decide

/-- C3 fails as stated: on `exState` the newest retained timestamp is 160,
yet `lower_bound(170, false)` does not return the `end()` sentinel — 170 is
still below the estimated bound `100 + 4 * 10 * 2 = 180`, so the fast path
returns the iterator at slot 3. -/
theorem c3_out_of_range_counterexample :
    exState.logicalTs (exState.occupancy - 1) < 170 ∧
    fixedRateLowerBound 10 (fun _ => true) exState 170 false = LBResult.it 3 ∧
    fixedRateLowerBound 10 (fun _ => true) exState 170 false ≠ LBResult.endIt := by
  decide

/-- C1 amended: for a queue whose retained records are uniformly spaced
(every record holds `f` frames at exactly `tickDiff` tick spacing) and a
target `t` between the oldest and the newest retained first timestamps,
`lower_bound(t, false)` returns the Iterator at slot
`(read + (t - ts0) / (tickDiff * f)) mod capacity` — the record covering
tick `t`, i.e. the retained record with the largest first timestamp that is
less than or equal to `t` (not the smallest one greater than or equal). -/
theorem c1_uniform_returns_covering_record (tickDiff f ts0 : Nat)
    (tw : Record → Bool) (s : QState) (t : Nat)
    (hd : 0 < tickDiff) (hf : 0 < f)
    (hread : s.readIndex_ < s.size_) (hcap : s.size_ ≤ 2 ^ 31)
    (hocc0 : 0 < s.occupancy) (hu : UniformFrom s tickDiff f ts0)
    (hov : ts0 + s.occupancy * tickDiff * f < U64)
    (hlo : ts0 ≤ t) (hhi : t ≤ s.logicalTs (s.occupancy - 1)) :
    fixedRateLowerBound tickDiff tw s t false =
      LBResult.it ((s.readIndex_ + (t - ts0) / (tickDiff * f)) % s.size_) ∧
    s.logicalTs ((t - ts0) / (tickDiff * f)) ≤ t ∧
    (∀ i, i < s.occupancy → s.logicalTs i ≤ t →
      s.logicalTs i ≤ s.logicalTs ((t - ts0) / (tickDiff * f))) := by
  have hcap0 : 0 < s.size_ := Nat.lt_of_le_of_lt (Nat.zero_le _) hread
  have hocc_lt : s.occupancy < s.size_ := Nat.mod_lt _ hcap0
  have hdf : 0 < tickDiff * f := Nat.mul_pos hd hf
  have hr0 : (s.readIndex_ + 0) % s.size_ = s.readIndex_ := by
    rw [Nat.add_zero, Nat.mod_eq_of_lt hread]
  have h0 := hu 0 hocc0
  have hlast : (s.records_ s.readIndex_).firstTimestamp = ts0 := by
    have h1 := h0.1
    unfold QState.logicalTs at h1
    rw [hr0] at h1
    simpa using h1
  have hfr : (s.records_ s.readIndex_).numFrames = f := by
    have h1 := h0.2
    rwa [hr0] at h1
  have hoccpred := hu (s.occupancy - 1) (by omega)
  have hhi' : t ≤ ts0 + (s.occupancy - 1) * (tickDiff * f) := by
    rw [← hoccpred.1]; exact hhi
  have hmono : (s.occupancy - 1) * (tickDiff * f) ≤
      s.occupancy * tickDiff * f := by
    rw [Nat.mul_assoc]
    exact Nat.mul_le_mul_right _ (by omega)
  have hj_le : (t - ts0) / (tickDiff * f) ≤ s.occupancy - 1 := by
    have hsub : t - ts0 ≤ (s.occupancy - 1) * (tickDiff * f) := by omega
    calc (t - ts0) / (tickDiff * f)
        ≤ (s.occupancy - 1) * (tickDiff * f) / (tickDiff * f) :=
          Nat.div_le_div_right hsub
      _ = s.occupancy - 1 := Nat.mul_div_cancel _ hdf
  have hj_lt : (t - ts0) / (tickDiff * f) < s.occupancy := by omega
  have heval := fast_path_eval tickDiff tw s t hd (by rw [hfr]; exact hf)
    hread hcap (by rw [hlast, hfr]; exact hov)
  rw [hlast, hfr, Nat.div_div_eq_div_mul] at heval
  rw [if_neg (by omega)] at heval
  have hres : fixedRateLowerBound tickDiff tw s t false =
      LBResult.it ((s.readIndex_ + (t - ts0) / (tickDiff * f)) % s.size_) := by
    rw [heval]
    by_cases hge : s.size_ ≤ s.readIndex_ + (t - ts0) / (tickDiff * f)
    · rw [if_pos hge]
      have hmod : (s.readIndex_ + (t - ts0) / (tickDiff * f)) % s.size_ =
          s.readIndex_ + (t - ts0) / (tickDiff * f) - s.size_ := by
        rw [Nat.mod_eq_sub_mod hge, Nat.mod_eq_of_lt (by omega)]
      rw [hmod]
    · rw [if_neg hge, Nat.mod_eq_of_lt (by omega)]
  refine ⟨hres, ?_, ?_⟩
  · rw [(hu _ hj_lt).1]
    have hmul := Nat.div_mul_le_self (t - ts0) (tickDiff * f)
    omega
  · intro i hi hle
    rw [(hu i hi).1] at hle ⊢
    rw [(hu _ hj_lt).1]
    have hible : i * (tickDiff * f) ≤ t - ts0 := by omega
    have hij : i ≤ (t - ts0) / (tickDiff * f) :=
      (Nat.le_div_iff_mul_le hdf).mpr hible
    have := Nat.mul_le_mul_right (tickDiff * f) hij
    omega

/-- Closed instance of `c1_uniform_returns_covering_record` on `exState`
(uniform spacing 20) at target 110: the fast path returns slot
`(0 + (110 - 100) / 20) mod 8 = 0`, whose record's timestamp 100 is the
largest retained timestamp at most 110. -/
theorem c1_uniform_returns_covering_record_witness :
    fixedRateLowerBound 10 (fun _ => true) exState 110 false =
      LBResult.it ((exState.readIndex_ + (110 - 100) / (10 * 2)) %
        exState.size_) ∧
    exState.logicalTs ((110 - 100) / (10 * 2)) ≤ 110 ∧
    (∀ i, i < exState.occupancy → exState.logicalTs i ≤ 110 →
      exState.logicalTs i ≤ exState.logicalTs ((110 - 100) / (10 * 2))) :=
  c1_uniform_returns_covering_record 10 2 100 (fun _ => true) exState 110
    (by decide) (by decide) (by decide) (by decide) (by decide)
    (by unfold UniformFrom; decide) (by decide) (by decide) (by decide)

/-- C2 amended: for uniformly-spaced retained data, the fixed-rate fast path
and the binary-search lookup return the same position for every query
timestamp that equals the first timestamp of a retained record (both return
that record's slot); for timestamps strictly inside a record's span the two
differ, as the counterexample shows, because the fast path floors to the
covering record while the binary search rounds up. -/
theorem c2_uniform_boundary_agreement (tickDiff f ts0 : Nat)
    (tw : Record → Bool) (s : QState) (j0 : Nat)
    (hd : 0 < tickDiff) (hf : 0 < f)
    (hread : s.readIndex_ < s.size_) (hcap : s.size_ ≤ 2 ^ 31)
    (hu : UniformFrom s tickDiff f ts0)
    (hov : ts0 + s.occupancy * tickDiff * f < U64)
    (hj0 : j0 < s.occupancy) :
    fixedRateLowerBound tickDiff tw s (s.logicalTs j0) false =
      binarySearchLowerBound tw s (s.logicalTs j0) false ∧
    fixedRateLowerBound tickDiff tw s (s.logicalTs j0) false =
      LBResult.it ((s.readIndex_ + j0) % s.size_) := by
  have hocc0 : 0 < s.occupancy := Nat.lt_of_le_of_lt (Nat.zero_le _) hj0
  have hcap0 : 0 < s.size_ := Nat.lt_of_le_of_lt (Nat.zero_le _) hread
  have hocc_lt : s.occupancy < s.size_ := Nat.mod_lt _ hcap0
  have hdf : 0 < tickDiff * f := Nat.mul_pos hd hf
  have hr0 : (s.readIndex_ + 0) % s.size_ = s.readIndex_ := by
    rw [Nat.add_zero, Nat.mod_eq_of_lt hread]
  have hts0 : s.logicalTs 0 = ts0 := by
    have h1 := (hu 0 hocc0).1
    simpa using h1
  have hlast : (s.records_ s.readIndex_).firstTimestamp = ts0 := by
    have h1 := hts0
    unfold QState.logicalTs at h1
    rwa [hr0] at h1
  have hfr : (s.records_ s.readIndex_).numFrames = f := by
    have h1 := (hu 0 hocc0).2
    rwa [hr0] at h1
  have htj0 : s.logicalTs j0 = ts0 + j0 * (tickDiff * f) := (hu j0 hj0).1
  have hmono : j0 * (tickDiff * f) ≤ s.occupancy * tickDiff * f := by
    rw [Nat.mul_assoc]
    exact Nat.mul_le_mul_right _ (Nat.le_of_lt hj0)
  have htpred : s.logicalTs (s.occupancy - 1) =
      ts0 + (s.occupancy - 1) * (tickDiff * f) := (hu _ (by omega)).1
  have hmono2 : j0 * (tickDiff * f) ≤ (s.occupancy - 1) * (tickDiff * f) :=
    Nat.mul_le_mul_right _ (by omega)
  -- the fast path returns the boundary record's slot
  have heval := fast_path_eval tickDiff tw s (s.logicalTs j0) hd
    (by rw [hfr]; exact hf) hread hcap (by rw [hlast, hfr]; exact hov)
  rw [hlast, hfr, Nat.div_div_eq_div_mul] at heval
  rw [if_neg (by rw [htj0]; omega)] at heval
  have hjred : (s.logicalTs j0 - ts0) / (tickDiff * f) = j0 := by
    rw [htj0, Nat.add_sub_cancel_left, Nat.mul_div_cancel _ hdf]
  rw [hjred] at heval
  have hfast : fixedRateLowerBound tickDiff tw s (s.logicalTs j0) false =
      LBResult.it ((s.readIndex_ + j0) % s.size_) := by
    rw [heval]
    by_cases hge : s.size_ ≤ s.readIndex_ + j0
    · rw [if_pos hge]
      have hmod : (s.readIndex_ + j0) % s.size_ =
          s.readIndex_ + j0 - s.size_ := by
        rw [Nat.mod_eq_sub_mod hge, Nat.mod_eq_of_lt (by omega)]
      rw [hmod]
    · rw [if_neg hge, Nat.mod_eq_of_lt (by omega)]
  -- the binary search also returns the boundary record's slot
  have hbin : binarySearchLowerBound tw s (s.logicalTs j0) false =
      LBResult.it ((s.readIndex_ + j0) % s.size_) := by
    rw [binarySearch_false_unfold, if_neg (by omega),
      if_neg (by rw [hts0, htpred, htj0]; omega)]
    have hfind : (List.range s.occupancy).find?
        (fun i => decide (s.logicalTs j0 ≤ s.logicalTs i)) = some j0 := by
      apply find_range_eq_some _ _ _ hj0
      · simp
      · intro i hi
        have hlt := (Nat.mul_lt_mul_right hdf).mpr hi
        simp only [(hu i (Nat.lt_trans hi hj0)).1, htj0,
          decide_eq_false_iff_not]
        omega
    rw [hfind]
  exact ⟨hfast.trans hbin.symm, hfast⟩

/-- Closed instance of `c2_uniform_boundary_agreement` on `exState` at the
boundary timestamp 140 (`logicalTs 2`): both lookups return slot 2. -/
theorem c2_uniform_boundary_agreement_witness :
    fixedRateLowerBound 10 (fun _ => true) exState (exState.logicalTs 2) false =
      binarySearchLowerBound (fun _ => true) exState
        (exState.logicalTs 2) false ∧
    fixedRateLowerBound 10 (fun _ => true) exState (exState.logicalTs 2) false =
      LBResult.it ((exState.readIndex_ + 2) % exState.size_) :=
  c2_uniform_boundary_agreement 10 2 100 (fun _ => true) exState 2
    (by decide) (by decide) (by decide) (by decide)
    (by unfold UniformFrom; decide) (by decide) (by decide)

/-- C3 amended: `lower_bound(t, false)` returns the `end()` sentinel — and,
being a total function of the snapshot, never any exception or other failure
signal — whenever `t` is below the oldest retained timestamp, and whenever
`t` exceeds `last_ts + occupancy * expected_tick_difference * frame_count`,
the estimated end of the newest record's span (rather than the newest
retained first timestamp, as originally claimed). -/
theorem c3_out_of_range_amended (tickDiff : Nat) (tw : Record → Bool)
    (s : QState) (t : Nat) (hread : s.readIndex_ < s.size_)
    (hov : (s.records_ s.readIndex_).firstTimestamp +
      s.occupancy * tickDiff * (s.records_ s.readIndex_).numFrames < U64) :
    (t < s.logicalTs 0 → fixedRateLowerBound tickDiff tw s t false = LBResult.endIt) ∧
    ((s.records_ s.readIndex_).firstTimestamp +
        s.occupancy * tickDiff * (s.records_ s.readIndex_).numFrames < t →
      fixedRateLowerBound tickDiff tw s t false = LBResult.endIt) := by
  have hts0 : s.logicalTs 0 = (s.records_ s.readIndex_).firstTimestamp := by
    unfold QState.logicalTs
    rw [Nat.add_zero, Nat.mod_eq_of_lt hread]
  constructor
  · intro h
    rw [hts0] at h
    rw [fixedRate_false_unfold, if_pos (Or.inl h)]
  · intro h
    rw [fixedRate_false_unfold, Nat.mod_eq_of_lt hov, if_pos (Or.inr h)]

/-- Closed instance of `c3_out_of_range_amended` on `exState`: target 90 is
below the oldest retained timestamp 100 and target 200 exceeds the estimated
bound 180; both return the sentinel. -/
theorem c3_out_of_range_amended_witness :
    fixedRateLowerBound 10 (fun _ => true) exState 90 false = LBResult.endIt ∧
    fixedRateLowerBound 10 (fun _ => true) exState 200 false = LBResult.endIt :=
  ⟨(c3_out_of_range_amended 10 (fun _ => true) exState 90 (by decide)
      (by decide)).1 (by decide),
   (c3_out_of_range_amended 10 (fun _ => true) exState 200 (by decide)
      (by decide)).2 (by decide)⟩

/-- C4: over a snapshot with the read cursor inside the storage, positive
tick spacing and frame count, capacity at most `2 ^ 31` and no `uint64_t`
overflow in the newest-timestamp estimate, `lower_bound(e, false)` returns
`end()` exactly when the target is below `last_ts` or above
`newest_ts = last_ts + occupancy * tickDiff * frame_count`, and otherwise an
Iterator at `start_index + ((t - last_ts) / tickDiff) / frame_count` (both
divisions truncating), reduced by the capacity once when the sum reaches it. -/
theorem c4_fast_path_characterisation (tickDiff : Nat) (tw : Record → Bool)
    (s : QState) (t : Nat) (hd : 0 < tickDiff)
    (hf : 0 < (s.records_ s.readIndex_).numFrames)
    (hread : s.readIndex_ < s.size_) (hcap : s.size_ ≤ 2 ^ 31)
    (hov : (s.records_ s.readIndex_).firstTimestamp +
      s.occupancy * tickDiff * (s.records_ s.readIndex_).numFrames < U64) :
    fixedRateLowerBound tickDiff tw s t false =
      if t < (s.records_ s.readIndex_).firstTimestamp ∨
          (s.records_ s.readIndex_).firstTimestamp +
            s.occupancy * tickDiff * (s.records_ s.readIndex_).numFrames < t then
        LBResult.endIt
      else if s.size_ ≤ s.readIndex_ +
          (t - (s.records_ s.readIndex_).firstTimestamp) / tickDiff /
            (s.records_ s.readIndex_).numFrames then
        LBResult.it (s.readIndex_ +
          (t - (s.records_ s.readIndex_).firstTimestamp) / tickDiff /
            (s.records_ s.readIndex_).numFrames - s.size_)
      else
        LBResult.it (s.readIndex_ +
          (t - (s.records_ s.readIndex_).firstTimestamp) / tickDiff /
            (s.records_ s.readIndex_).numFrames) :=
  fast_path_eval tickDiff tw s t hd hf hread hcap hov

/-- Closed instance of `c4_fast_path_characterisation` on `exState` at target
130: the characterised index is `0 + ((130 - 100) / 10) / 2 = 1`. -/
theorem c4_fast_path_characterisation_witness :
    fixedRateLowerBound 10 (fun _ => true) exState 130 false = LBResult.it 1 := by
  rw [c4_fast_path_characterisation 10 (fun _ => true) exState 130 (by decide)
    (by decide) (by decide) (by decide) (by decide)]
  decide

/-- C5: for a snapshot whose read cursor is inside the storage and a target
passing the in-range bounds check, the computed record offset is at most the
occupancy snapshot, the raw sum `start_index + record_offset` stays below
twice the capacity, and the single conditional subtraction therefore puts
the returned Iterator at a valid slot index below the capacity. -/
theorem c5_target_index_valid (tickDiff : Nat) (tw : Record → Bool)
    (s : QState) (t : Nat) (hd : 0 < tickDiff)
    (hf : 0 < (s.records_ s.readIndex_).numFrames)
    (hread : s.readIndex_ < s.size_) (hcap : s.size_ ≤ 2 ^ 31)
    (hov : (s.records_ s.readIndex_).firstTimestamp +
      s.occupancy * tickDiff * (s.records_ s.readIndex_).numFrames < U64)
    (hocc : s.occupancy ≤ s.size_)
    (hin : (s.records_ s.readIndex_).firstTimestamp ≤ t ∧
      t ≤ (s.records_ s.readIndex_).firstTimestamp +
        s.occupancy * tickDiff * (s.records_ s.readIndex_).numFrames) :
    (t - (s.records_ s.readIndex_).firstTimestamp) / tickDiff /
        (s.records_ s.readIndex_).numFrames ≤ s.occupancy ∧
    s.readIndex_ + (t - (s.records_ s.readIndex_).firstTimestamp) / tickDiff /
        (s.records_ s.readIndex_).numFrames < 2 * s.size_ ∧
    (∃ j, fixedRateLowerBound tickDiff tw s t false = LBResult.it j ∧
      j < s.size_) := by
  obtain ⟨hin1, hin2⟩ := hin
  have hoff := div_div_le_of_le s.occupancy tickDiff
    (s.records_ s.readIndex_).numFrames
    (t - (s.records_ s.readIndex_).firstTimestamp) hd hf (by omega)
  refine ⟨hoff, by omega, ?_⟩
  rw [fast_path_eval tickDiff tw s t hd hf hread hcap hov,
    if_neg (by omega)]
  by_cases hge : s.size_ ≤ s.readIndex_ +
      (t - (s.records_ s.readIndex_).firstTimestamp) / tickDiff /
        (s.records_ s.readIndex_).numFrames
  · rw [if_pos hge]
    exact ⟨_, rfl, by omega⟩
  · rw [if_neg hge]
    exact ⟨_, rfl, by omega⟩

/-- Closed instance of `c5_target_index_valid` on `exState` at target 170
(in range of the estimate): the offset is at most the occupancy of 4, the
raw sum stays below 16, and the returned slot 3 is below the capacity 8. -/
theorem c5_target_index_valid_witness :
    (170 - (exState.records_ exState.readIndex_).firstTimestamp) / 10 /
        (exState.records_ exState.readIndex_).numFrames ≤ exState.occupancy ∧
    exState.readIndex_ +
      (170 - (exState.records_ exState.readIndex_).firstTimestamp) / 10 /
        (exState.records_ exState.readIndex_).numFrames < 2 * exState.size_ ∧
    (∃ j, fixedRateLowerBound 10 (fun _ => true) exState 170 false =
      LBResult.it j ∧ j < exState.size_) :=
  c5_target_index_valid 10 (fun _ => true) exState 170 (by decide) (by decide)
    (by decide) (by decide) (by decide) (by decide) (by decide)

/-- C9: on an empty buffer (occupancy 0) the fast path computes
`newest_ts = last_ts`, so every target other than the timestamp stored in the
uncommitted slot at the read cursor yields `end()`, while that single value
yields a non-end Iterator at the read-cursor slot itself. -/
theorem c9_empty_buffer_single_hit (tickDiff : Nat) (tw : Record → Bool)
    (s : QState) (t : Nat) (hread : s.readIndex_ < s.size_)
    (hcap : s.size_ ≤ 2 ^ 31) (hocc : s.occupancy = 0)
    (hts : (s.records_ s.readIndex_).firstTimestamp < U64) :
    (t ≠ (s.records_ s.readIndex_).firstTimestamp →
      fixedRateLowerBound tickDiff tw s t false = LBResult.endIt) ∧
    fixedRateLowerBound tickDiff tw s
        (s.records_ s.readIndex_).firstTimestamp false =
      LBResult.it s.readIndex_ := by
  have hnew : (s.records_ s.readIndex_).firstTimestamp +
      s.occupancy * tickDiff * (s.records_ s.readIndex_).numFrames =
      (s.records_ s.readIndex_).firstTimestamp := by
    rw [hocc]; ring
  have hread32 : s.readIndex_ < U32 := by
    have hcapv : s.size_ ≤ 2147483648 := by
      rw [show (2147483648 : Nat) = 2 ^ 31 by norm_num]
      exact hcap
    rw [show U32 = 4294967296 from by norm_num [U32]]
    omega
  constructor
  · intro hne
    rw [fixedRate_false_unfold, hnew, Nat.mod_eq_of_lt hts,
      if_pos (by omega)]
  · rw [fixedRate_false_unfold, hnew, Nat.mod_eq_of_lt hts,
      if_neg (by omega), Nat.sub_self, Nat.zero_div, Nat.zero_div,
      Nat.zero_mod, Nat.add_zero, Nat.mod_eq_of_lt hread32,
      if_neg (by omega)]

/-- Closed instance of `c9_empty_buffer_single_hit` on the empty queue
`exEmptyState` (both cursors at 0, slot timestamp 100): target 101 hits the
sentinel, target 100 hits the read-cursor slot. -/
theorem c9_empty_buffer_single_hit_witness :
    fixedRateLowerBound 10 (fun _ => true) exEmptyState 101 false =
      LBResult.endIt ∧
    fixedRateLowerBound 10 (fun _ => true) exEmptyState 100 false =
      LBResult.it 0 :=
  ⟨(c9_empty_buffer_single_hit 10 (fun _ => true) exEmptyState 101 (by decide)
      (by decide) (by decide) (by decide)).1 (by decide),
   (c9_empty_buffer_single_hit 10 (fun _ => true) exEmptyState 100 (by decide)
      (by decide) (by decide) (by decide)).2⟩

/-- C6: with `with_errors = true`, `FixedRateQueueModel::lower_bound` returns
exactly `BinarySearchQueueModel::lower_bound(element, true)`; the fast-path
arithmetic is not reached (the equation holds definitionally because the
delegation is the first statement of the body). -/
theorem c6_with_errors_delegates (tickDiff : Nat) (tw : Record → Bool)
    (s : QState) (t : Nat) :
    fixedRateLowerBound tickDiff tw s t true = binarySearchLowerBound tw s t true :=
  rfl

/-- C7: `FixedRateQueueModel::lower_bound(e, false)` mutates nothing — the
read cursor, the write cursor, the stored records and the capacity of the
state-threaded embedding are identical before and after the call. -/
theorem c7_lower_bound_pure (tickDiff : Nat) (tw : Record → Bool) (s : QState)
    (t : Nat) :
    (fixedRateLowerBoundSt tickDiff tw s t false).2.readIndex_ = s.readIndex_ ∧
    (fixedRateLowerBoundSt tickDiff tw s t false).2.writeIndex_ = s.writeIndex_ ∧
    (fixedRateLowerBoundSt tickDiff tw s t false).2.records_ = s.records_ ∧
    (fixedRateLowerBoundSt tickDiff tw s t false).2.size_ = s.size_ :=
  ⟨rfl, rfl, rfl, rfl⟩

/-- C8: in `RecorderImpl::do_work`, a `QueueTimeoutExpired` from `pop` makes
the loop continue to its next iteration with the state untouched — no
counter increment, no file write, no termination — and the loop exits only
when the run marker is cleared or a file write fails. -/
theorem c8_timeout_recoverable (s : RecState) (w : Bool) :
    (s.runMarker = true →
      do_work_step s PopOutcome.timeoutExpired w = LoopStep.nextIter s) ∧
    (∀ p s', do_work_step s p w = LoopStep.exitLoop s' →
      s.runMarker = false ∨ (w = false ∧ ∃ e, p = PopOutcome.elem e)) := by
  constructor
  · intro h
    simp [do_work_step, h]
  · intro p s' h
    cases hm : s.runMarker with
    | false => exact Or.inl rfl
    | true =>
      cases p with
      | timeoutExpired => simp [do_work_step, hm] at h
      | elem e =>
        cases hw : w with
        | false => exact Or.inr ⟨rfl, e, rfl⟩
        | true => simp [do_work_step, hm, hw] at h

/-- Closed instance of `c8_timeout_recoverable`: with the run marker set,
a timeout leaves the recorder state `⟨true, 5, 2, [7]⟩` untouched and the
loop continues. -/
theorem c8_timeout_recoverable_witness :
    do_work_step ⟨true, 5, 2, [7]⟩ PopOutcome.timeoutExpired true =
      LoopStep.nextIter ⟨true, 5, 2, [7]⟩ :=
  (c8_timeout_recoverable ⟨true, 5, 2, [7]⟩ true).1 rfl

/-- C10: with `dropout_rate = 0.0` and draws from `[0, 1)` (hence
non-negative), the dropout table built by `conf` is the single entry `true`,
`create_frame` holds on every iteration of `run_produce`, and every record
read from the sample file is pushed — `n` iterations push `n` records. -/
theorem c10_zero_dropout_pushes_all (m : Nat) (draws : Nat → ℚ)
    (hnn : ∀ i, 0 ≤ draws i) :
    conf_dropouts 0 m draws = [true] ∧
    (∀ k, create_frame (conf_dropouts 0 m draws) k = true) ∧
    (∀ n, run_produce_pushes (conf_dropouts 0 m draws) n = n) := by
  have htab : conf_dropouts 0 m draws = [true] := by
    simp [conf_dropouts, List.range_succ, hnn 0]
  refine ⟨htab, ?_, ?_⟩
  · intro k
    rw [htab]
    simp [create_frame, Nat.mod_one]
  · intro n
    induction n with
    | zero => rfl
    | succ n ih =>
      rw [run_produce_pushes, ih, htab]
      simp [create_frame, Nat.mod_one]

/-- Closed instance of `c10_zero_dropout_pushes_all` at the constant draw
`1/2` and population size 10000: the table is `[true]`, iteration 7 creates
its frame, and 3 iterations push 3 records. -/
theorem c10_zero_dropout_pushes_all_witness :
    conf_dropouts 0 10000 (fun _ => (1 : ℚ) / 2) = [true] ∧
    create_frame (conf_dropouts 0 10000 (fun _ => (1 : ℚ) / 2)) 7 = true ∧
    run_produce_pushes (conf_dropouts 0 10000 (fun _ => (1 : ℚ) / 2)) 3 = 3 := by
  have h := c10_zero_dropout_pushes_all 10000 (fun _ => (1 : ℚ) / 2)
    (fun i => by norm_num)
  exact ⟨h.1, h.2.1 7, h.2.2 3⟩

end Readout
